import Mathlib

/-!
Verification development for the `matsune/xml` recursive-descent XML 1.0
parser (`parser.go`).  The grammar engine of `parser.go` is embedded
shallowly: each Go parsing method `(p *parser) parseX` becomes a Lean
function `parseX : PM α` operating on an explicit scanner state.  A Go
method returning `(v, err)` is modelled as returning `(some v, state)` on
success and `(none, state)` on failure; the state carried back on failure
is the scanner state at the moment of the Go `return`, exactly as the Go
parser's mutable cursor persists past a failing call.  Error diagnostics
(production labels, positions, messages) have no bearing on the verified
properties and are collapsed into `none`.
-/

namespace Xml

/-! ## Character classifier

Modelled from the spec: the Character Classifier is an external
collaborator (spec section 6) whose source file is not part of `src/`;
only `parser.go` calling `isSpace`, `isNum`, `isAlpha`, `isLetter`,
`isDigit`, `isCombining`, `isExtender`, `isPubidChar`, `isQuote`,
`isChar` and `isNameChar` is available.  The predicates below follow the
contract stated in the spec: `isSpace` accepts exactly the four XML
space characters U+0020, U+0009, U+000D, U+000A; `isQuote` accepts
an apostrophe or a double quote; `isNum`/`isDigit` accept the decimal
digits and `isAlpha`/`isLetter` the ASCII letters, matching the
VersionNum production `[a-zA-Z0-9_.:-]` and the EncName production
`[A-Za-z]([A-Za-z0-9._]|-)*` quoted in `parser.go`; `isChar` follows the
XML 1.0 `Char` production; `isPubidChar` follows the XML 1.0 `PubidChar`
production.  The exact Unicode ranges of `isLetter`, `isCombining` and
`isExtender` are declared out of scope by the spec; the ASCII fragment
used here agrees with every input exercised by the claims. -/

/-- Tab character U+0009. -/
def tabChar : Char := Char.ofNat 9
/-- Line feed U+000A. -/
def lfChar : Char := Char.ofNat 10
/-- Carriage return U+000D. -/
def crChar : Char := Char.ofNat 13
/-- Apostrophe U+0027 (the single-quote character). -/
def squote : Char := Char.ofNat 39
/-- Code point returned by the scanner at end of input (Go rune zero value). -/
def sentinelChar : Char := Char.ofNat 0

/-- Modelled from the spec: exactly the four XML space characters. -/
def isSpace (c : Char) : Bool := c = ' ' || c = tabChar || c = crChar || c = lfChar

/-- Modelled from the spec: decimal digit predicate. -/
def isNum (c : Char) : Bool := '0' ≤ c && c ≤ '9'

/-- Modelled from the spec: ASCII letter predicate (`[A-Za-z]`). -/
def isAlpha (c : Char) : Bool := ('a' ≤ c && c ≤ 'z') || ('A' ≤ c && c ≤ 'Z')

/-- Modelled from the spec: `Letter` classifier; ASCII fragment. -/
def isLetter (c : Char) : Bool := isAlpha c

/-- Modelled from the spec: `Digit` classifier; ASCII fragment. -/
def isDigit (c : Char) : Bool := isNum c

/-- Modelled from the spec: `CombiningChar` classifier; no ASCII character
is a combining character. -/
def isCombining (_ : Char) : Bool := false

/-- Modelled from the spec: `Extender` classifier; no ASCII character is
an extender. -/
def isExtender (_ : Char) : Bool := false

/-- Modelled from the spec: `'` or `"`. -/
def isQuote (c : Char) : Bool := c = squote || c = '"'

/-- Modelled from the spec: the XML 1.0 `Char` production
`#x9 | #xA | #xD | [#x20-#xD7FF] | [#xE000-#xFFFD] | [#x10000-#x10FFFF]`. -/
def isChar (c : Char) : Bool :=
  c = tabChar || c = lfChar || c = crChar ||
  (0x20 ≤ c.toNat && c.toNat ≤ 0xD7FF) ||
  (0xE000 ≤ c.toNat && c.toNat ≤ 0xFFFD) ||
  (0x10000 ≤ c.toNat && c.toNat ≤ 0x10FFFF)

/-- Modelled from the spec: the XML 1.0 `PubidChar` production
`#x20 | #xD | #xA | [a-zA-Z0-9] | [-'()+,./:=?;!*#@$_%]`. -/
def isPubidChar (c : Char) : Bool :=
  c = ' ' || c = crChar || c = lfChar || isAlpha c || isNum c ||
  c = '-' || c = squote || c = '(' || c = ')' || c = '+' || c = ',' ||
  c = '.' || c = '/' || c = ':' || c = '=' || c = '?' || c = ';' ||
  c = '!' || c = '*' || c = '#' || c = '@' || c = '$' || c = '_' || c = '%'

/-- `NameChar ::= Letter | Digit | . | - | _ | : | CombiningChar | Extender`;
this is both the `(p *parser) isNameChar` method and the free classifier
function used by `parseNmtoken`. -/
def isNameChar (c : Char) : Bool :=
  isLetter c || isDigit c || c = '.' || c = '-' || c = '_' || c = ':' ||
  isCombining c || isExtender c

/-! ## Scanner

Modelled from the spec: the Scanner (spec section 4.1) is not under
`src/`.  It holds the immutable decoded code-point sequence and a mutable
cursor (a code-point index).  `parser.go` uses `Get` (peek, returning an
end-of-input sentinel past the end), `Step`/`StepN` (unconditional
advance), `isEnd`, direct reads and writes of `cursor`, and slicing of
`source` (via `Tests`).  All string literals passed to `Tests`/`Musts`
in `parser.go` are ASCII, so their Go byte length equals their code-point
length and a single length notion suffices. -/

structure PState where
  src : List Char
  cur : Nat
deriving Repr, DecidableEq

/-- `scanner.Get`: the code point at the cursor, or the sentinel at/past
the end of input. -/
def PState.get (s : PState) : Char := s.src.getD s.cur sentinelChar

/-- `scanner.Step`: advance the cursor by one. -/
def PState.step (s : PState) : PState := { s with cur := s.cur + 1 }

/-- `scanner.StepN`: advance the cursor by `n`. -/
def PState.stepN (s : PState) (n : Nat) : PState := { s with cur := s.cur + n }

/-- `scanner.isEnd`: the cursor is at or past the end of the input. -/
def PState.isEnd (s : PState) : Bool := s.src.length ≤ s.cur

/-- `(p *parser) Test`: does the code point at the cursor equal `r`? -/
def PState.test (s : PState) (r : Char) : Bool := s.get = r

/-- `(p *parser) Tests`: does the input at the cursor start with `t`? -/
def PState.tests (s : PState) (t : String) : Bool :=
  decide (s.cur + t.toList.length ≤ s.src.length) &&
    (s.src.drop s.cur).take t.toList.length == t.toList

/-! ## The parse monad

A parsing operation maps a scanner state to an optional result plus the
scanner state at the moment of return.  A failing Go call returns
`(nil, err)` while the parser's cursor keeps whatever value it had, so
failure here is `(none, state-at-failure)`. -/

def PM (α : Type) : Type := PState → Option α × PState

/-- Sequencing: run `m`; on success feed the value to `f`, on failure
return the failure with the state `m` stopped in (Go's
`if err != nil { return nil, err }` pattern). -/
def PM.bind {α β : Type} (m : PM α) (f : α → PM β) : PM β := fun s =>
  match m s with
  | (some a, t) => f a t
  | (none, t) => (none, t)

/-- Returning a value without touching the scanner. -/
def PM.pure {α : Type} (a : α) : PM α := fun s => (some a, s)

instance : Monad PM where
  pure := PM.pure
  bind := PM.bind

/-- Unconditional failure at the current state. -/
def pfail {α : Type} : PM α := fun s => (none, s)

/-- Read the cursor (Go `cur := p.cursor`). -/
def getCur : PM Nat := fun s => (some s.cur, s)

/-- Write the cursor (Go `p.cursor = cur`). -/
def setCur (n : Nat) : PM Unit := fun s => (some (), { s with cur := n })

/-- `p.Get()` as an operation. -/
def peekM : PM Char := fun s => (some s.get, s)

/-- `p.Step()` as an operation. -/
def stepM : PM Unit := fun s => (some (), s.step)

/-- `p.StepN n` as an operation. -/
def stepNM (n : Nat) : PM Unit := fun s => (some (), s.stepN n)

/-- `p.Test r` as an operation. -/
def testM (r : Char) : PM Bool := fun s => (some (s.test r), s)

/-- `p.Tests str` as an operation. -/
def testsM (t : String) : PM Bool := fun s => (some (s.tests t), s)

/-- `p.isEnd()` as an operation. -/
def isEndM : PM Bool := fun s => (some s.isEnd, s)

/-- `(p *parser) Must`: consume the expected code point or fail. -/
def Must (r : Char) : PM Unit := fun s =>
  if s.test r then (some (), s.step) else (none, s)

/-- `(p *parser) Musts`: consume the expected literal or fail. -/
def Musts (t : String) : PM Unit := fun s =>
  if s.tests t then (some (), s.stepN t.toList.length) else (none, s)

/-- A scanning loop `for pred(p.Get()) { ... p.Step() }` that collects the
consumed code points; equivalent to the Go loop because `pred` rejects the
end-of-input sentinel wherever this is used. -/
def takeWhileP (pred : Char → Bool) : PM (List Char) := fun s =>
  let cs := (s.src.drop s.cur).takeWhile pred
  (some cs, { s with cur := s.cur + cs.length })

/-! ## Syntax tree

Modelled from the spec: the tree type definitions (spec section 3) are not
under `src/`; the shapes below are fixed by how `parser.go` constructs and
reads them.  Go `*T`/interface fields that may stay `nil` become `Option`;
Go interface (tagged-union) fields become closed inductives.  The Go
`CharRef` struct stores the reference kind as the literal prefix string
(field named after the prefix, holding `&#` or `&#x`) plus the digit text;
the field is called `pfx` here. -/

/-- `XMLDecl`: version, optional encoding (zero value `""`), optional
standalone flag (zero value `false`). -/
structure XMLDecl where
  version : String
  encoding : String
  standalone : Bool
deriving Repr, DecidableEq

/-- `PI`: processing instruction target and raw instruction text. -/
structure PI where
  target : String
  instruction : String
deriving Repr, DecidableEq

/-- `Misc ::= Comment | PI | S`: whitespace is discarded, so a stored
`Misc` is a comment or a PI. -/
inductive Misc where
  | comment (c : String)
  | pi (p : PI)
deriving Repr, DecidableEq

/-- `CharRef`: `pfx` is the matched literal prefix (`&#` or `&#x`,
Go field name P-refix), `value` the digit text. -/
structure CharRef where
  pfx : String
  value : String
deriving Repr, DecidableEq

/-- `EntityRef`: `&Name;`. -/
structure EntityRef where
  name : String
deriving Repr, DecidableEq

/-- `PERef`: `%Name;`. -/
structure PERef where
  name : String
deriving Repr, DecidableEq

/-- `Ref` interface: an entity reference or a character reference. -/
inductive Ref where
  | entityRef (e : EntityRef)
  | charRef (c : CharRef)
deriving Repr, DecidableEq

/-- One segment of an `AttValue`: a literal text run or a reference. -/
inductive AttSeg where
  | text (s : String)
  | ref (r : Ref)
deriving Repr, DecidableEq

/-- `AttValue`: ordered segments between the quotes. -/
def AttValue : Type := List AttSeg
deriving Repr, DecidableEq

/-- One segment of an `EntityValue`: literal text, entity reference,
character reference, or parameter-entity reference. -/
inductive EntSeg where
  | text (s : String)
  | eref (e : EntityRef)
  | cref (c : CharRef)
  | pref (p : PERef)
deriving Repr, DecidableEq

/-- `EntityValue`: ordered segments between the quotes. -/
def EntityValue : Type := List EntSeg
deriving Repr, DecidableEq

/-- `Attribute`: one `name="value"` pair. -/
structure Attribute where
  name : String
  attValue : AttValue
deriving Repr, DecidableEq

mutual
/-- Content particles of an element-content model: a `CP` carries either
a name or a nested choice/seq group, plus an optional repetition
suffix. -/
inductive CP where
  | mk (name : String) (choiceSeq : Option ChoiceSeq) (suffix : Option Char)
/-- The Go `ChoiceSeq` interface: a `Choice` or a `Seq` over content
particles. -/
inductive ChoiceSeq where
  | choice (cps : List CP)
  | seq (cps : List CP)
end

/-- Name component of a content particle. -/
def CP.name : CP → String
  | .mk n _ _ => n

/-- Nested group component of a content particle. -/
def CP.choiceSeq : CP → Option ChoiceSeq
  | .mk _ g _ => g

/-- Repetition suffix of a content particle. -/
def CP.suffix : CP → Option Char
  | .mk _ _ sfx => sfx

/-- `Children`: a choice/seq group with an optional `?`/`*`/`+` suffix. -/
structure Children where
  choiceSeq : ChoiceSeq
  suffix : Option Char

/-- `Mixed`: the ordered element names of a `(#PCDATA|...)*` model. -/
structure Mixed where
  names : List String
deriving Repr, DecidableEq

/-- `ContentSpec` interface: `EMPTY`, `ANY`, `Mixed` or `Children`. -/
inductive ContentSpec where
  | empty
  | any
  | mixed (m : Mixed)
  | children (c : Children)

/-- `ElementDecl`: `<!ELEMENT Name contentspec>`. -/
structure ElementDecl where
  name : String
  contentSpec : ContentSpec

/-- `AttToken`: the tokenized / string attribute-type keywords. -/
inductive AttToken where
  | CDATA | ID | IDREF | IDREFS | ENTITY | ENTITIES | NMTOKEN | NMTOKENS
deriving Repr, DecidableEq

/-- `AttToken.ToString`: the literal keyword of each token. -/
def AttToken.ToString : AttToken → String
  | .CDATA => "CDATA"
  | .ID => "ID"
  | .IDREF => "IDREF"
  | .IDREFS => "IDREFS"
  | .ENTITY => "ENTITY"
  | .ENTITIES => "ENTITIES"
  | .NMTOKEN => "NMTOKEN"
  | .NMTOKENS => "NMTOKENS"

/-- `NotationType`: `NOTATION (n1|n2|...)`. -/
structure NotationType where
  names : List String
deriving Repr, DecidableEq

/-- `Enum`: parenthesized enumeration of Nmtokens. -/
structure Enum where
  cases : List String
deriving Repr, DecidableEq

/-- `AttType` interface: keyword token, notation type, or enumeration. -/
inductive AttType where
  | tok (t : AttToken)
  | notation_ (n : NotationType)
  | enum (e : Enum)
deriving Repr, DecidableEq

/-- `DefaultDeclType`: `#REQUIRED`, `#IMPLIED` or `#FIXED`. -/
inductive DefaultDeclType where
  | REQUIRED | IMPLIED | FIXED
deriving Repr, DecidableEq

/-- `DefaultDeclType.ToString`: the literal keyword of each kind. -/
def DefaultDeclType.ToString : DefaultDeclType → String
  | .REQUIRED => "#REQUIRED"
  | .IMPLIED => "#IMPLIED"
  | .FIXED => "#FIXED"

/-- `DefaultDecl`: kind plus the default `AttValue` when present. -/
structure DefaultDecl where
  type : DefaultDeclType
  attValue : Option AttValue
deriving Repr, DecidableEq

/-- `AttDef`: one attribute definition of an ATTLIST. -/
structure AttDef where
  name : String
  type : AttType
  decl : DefaultDecl
deriving Repr, DecidableEq

/-- `Attlist`: `<!ATTLIST Name AttDef*>`. -/
structure Attlist where
  name : String
  defs : List AttDef
deriving Repr, DecidableEq

/-- `ExternalType`: SYSTEM or PUBLIC. -/
inductive ExternalType where
  | system | public
deriving Repr, DecidableEq

/-- `ExternalID`: kind, optional public-id literal, system literal. -/
structure ExternalID where
  type : ExternalType
  pubid : String
  system : String
deriving Repr, DecidableEq

/-- `EntityType`: general or parameter entity. -/
inductive EntityType where
  | ge | pe
deriving Repr, DecidableEq

/-- `Entity`: `<!ENTITY ...>` declaration. -/
structure Entity where
  type : EntityType
  name : String
  value : Option EntityValue
  extID : Option ExternalID
  ndata : String
deriving Repr, DecidableEq

/-- `Notation`: `<!NOTATION Name (ExternalID|PublicID)>`. -/
structure Notation where
  name : String
  extID : ExternalID
deriving Repr, DecidableEq

/-- `Markup` interface: one DTD declaration. -/
inductive Markup where
  | elementDecl (d : ElementDecl)
  | attlist (a : Attlist)
  | entity (e : Entity)
  | notation_ (n : Notation)
  | pi (p : PI)
  | comment (c : String)

/-- `DOCType`: `<!DOCTYPE ...>`. -/
structure DOCType where
  name : String
  extID : Option ExternalID
  markups : List Markup
  peRef : Option PERef

mutual
/-- `Element`: name, ordered attributes, ordered `Contents` entries
(`[]interface{}` in Go) and the empty-tag flag. -/
inductive Element where
  | mk (name : String) (attrs : List Attribute) (contents : List Content)
      (isEmptyTag : Bool)
/-- One entry of an element's `Contents` list. -/
inductive Content where
  | text (s : String)
  | elem (e : Element)
  | ref (r : Ref)
  | cdata (s : String)
  | pi (p : PI)
  | comment (c : String)
end

/-- Name of an element. -/
def Element.name : Element → String
  | .mk n _ _ _ => n

/-- Attribute list of an element. -/
def Element.attrs : Element → List Attribute
  | .mk _ a _ _ => a

/-- Contents list of an element. -/
def Element.contents : Element → List Content
  | .mk _ _ c _ => c

/-- Empty-tag flag of an element. -/
def Element.isEmptyTag : Element → Bool
  | .mk _ _ _ b => b

/-- `Prolog`: optional XMLDecl, Misc before DOCTYPE, optional DOCType,
Misc after DOCTYPE. -/
structure Prolog where
  xmlDecl : Option XMLDecl
  misc1 : List Misc
  docType : Option DOCType
  misc2 : List Misc

/-- `XML`: the whole parse result. -/
structure XML where
  prolog : Prolog
  element : Element
  misc : List Misc

/-! ## Basic productions (`parser.go`) -/

/-- `skipSpace`: skip spaces until reaching a non-space. -/
def skipSpace : PM Unit := fun s =>
  let cs := (s.src.drop s.cur).takeWhile isSpace
  (some (), { s with cur := s.cur + cs.length })

/-- `parseSpace`: `S ::= (#x20 | #x9 | #xD | #xA)+`. -/
def parseSpace : PM Unit := fun s =>
  if isSpace s.get then skipSpace s else (none, s)

/-- `parseName`: `Name ::= (Letter | _ | :) (NameChar)*`. -/
def parseName : PM String := fun s =>
  if isLetter s.get || s.test '_' || s.test ':' then
    let rest := (s.src.drop (s.cur + 1)).takeWhile isNameChar
    (some (String.mk (s.get :: rest)), { s with cur := s.cur + 1 + rest.length })
  else (none, s)

/-- `parseQuote`: consume a quote character and return it. -/
def parseQuote : PM Char := fun s =>
  if isQuote s.get then (some s.get, s.step) else (none, s)

/-- `parseEq`: `Eq ::= S? = S?`. -/
def parseEq : PM Unit := do
  skipSpace
  Must '='
  skipSpace

/-- The `isVerChar` closure of `parseVersionNum`. -/
def isVerChar (c : Char) : Bool :=
  isNum c || isAlpha c || c = '_' || c = '.' || c = ':' || c = '-'

/-- `parseVersionNum`: `VersionNum ::= ([a-zA-Z0-9_.:] | -)+`. -/
def parseVersionNum : PM String := fun s =>
  if isVerChar s.get then
    let rest := (s.src.drop (s.cur + 1)).takeWhile isVerChar
    (some (String.mk (s.get :: rest)), { s with cur := s.cur + 1 + rest.length })
  else (none, s)

/-- `parseVersion`: `VersionInfo ::= S version Eq (quoted VersionNum)`. -/
def parseVersion : PM String := do
  parseSpace
  Musts "version"
  parseEq
  let q ← parseQuote
  let v ← parseVersionNum
  Must q
  pure v

/-- Rest-character predicate of `parseEncName`. -/
def isEncRestChar (c : Char) : Bool :=
  isAlpha c || isNum c || c = '.' || c = '_' || c = '-'

/-- `parseEncName`: `EncName ::= [A-Za-z] ([A-Za-z0-9._] | -)*`. -/
def parseEncName : PM String := fun s =>
  if isAlpha s.get then
    let rest := (s.src.drop (s.cur + 1)).takeWhile isEncRestChar
    (some (String.mk (s.get :: rest)), { s with cur := s.cur + 1 + rest.length })
  else (none, s)

/-- `parseEncoding`: `EncodingDecl ::= S encoding Eq (quoted EncName)`. -/
def parseEncoding : PM String := do
  parseSpace
  Musts "encoding"
  parseEq
  let q ← parseQuote
  let e ← parseEncName
  Must q
  pure e

/-- `parseStandalone`: `SDDecl ::= S standalone Eq (quoted yes/no)`. -/
def parseStandalone : PM Bool := do
  parseSpace
  Musts "standalone"
  parseEq
  let q ← parseQuote
  let b1 ← testsM "yes"
  let std ←
    if b1 then do
      stepNM 3
      pure true
    else do
      let b2 ← testsM "no"
      if b2 then do
        stepNM 2
        pure false
      else pfail
  Must q
  pure std

/-- `parseXmlDecl`:
`XMLDecl ::= <?xml VersionInfo EncodingDecl? SDDecl? S? ?>`; the cursor
is saved before probing for `encoding`/`standalone` and restored either
way, exactly as in the Go code. -/
def parseXmlDecl : PM XMLDecl := do
  Musts "<?xml"
  let ver ← parseVersion
  let cur ← getCur
  skipSpace
  let hasEnc ← testsM "encoding"
  let enc ←
    if hasEnc then do
      setCur cur
      parseEncoding
    else do
      setCur cur
      pure ""
  let cur2 ← getCur
  skipSpace
  let hasStd ← testsM "standalone"
  let std ←
    if hasStd then do
      setCur cur2
      parseStandalone
    else do
      setCur cur2
      pure false
  skipSpace
  Musts "?>"
  pure ⟨ver, enc, std⟩

/-- Body loop of `parseComment`; the fuel argument is instantiated with
`src.length + 1 - cur`, which the loop can never exhaust because every
iteration advances the cursor and the loop stops at the end of input
(the sentinel is not an XML `Char`). -/
def commentLoop : Nat → String → PM String
  | 0, _ => pfail
  | n + 1, acc => fun s =>
    if s.tests "--" then (some acc, s)
    else if isChar s.get then commentLoop n (acc.push s.get) s.step
    else (none, s)

/-- `parseComment`: `Comment ::= <!-- ((Char - -) | (- (Char - -)))* -->`. -/
def parseComment : PM String := do
  Musts "<!--"
  let c ← fun s => commentLoop (s.src.length + 1 - s.cur) "" s
  Musts "-->"
  pure c

/-- `strings.ContainsAny(n, "xmlXML")`: does the name contain any of the
six letters? -/
def containsAnyXml (n : String) : Bool :=
  n.toList.any (fun c => ("xmlXML".toList).contains c)

/-- `parsePITarget`: parse a Name, then reject it if it contains any of
the letters x, m, l, X, M, L. -/
def parsePITarget : PM String := do
  let n ← parseName
  if containsAnyXml n then pfail else pure n

/-- Instruction-collecting loop of `parsePI`. -/
def piLoop : Nat → String → PM String
  | 0, acc => fun s => (some acc, s)
  | n + 1, acc => fun s =>
    if !s.tests "?>" && !s.isEnd && isChar s.get then piLoop n (acc.push s.get) s.step
    else (some acc, s)

/-- `parsePI`: `PI ::= <? PITarget (S (Char* - (Char* ?> Char*)))? ?>`. -/
def parsePI : PM PI := do
  Musts "<?"
  let t ← parsePITarget
  let sp ← peekM
  let ins ←
    if isSpace sp then do
      skipSpace
      fun s => piLoop (s.src.length + 1 - s.cur) "" s
    else pure ""
  Musts "?>"
  pure ⟨t, ins⟩

/-- Body loop of `parseCDSect`: collect characters until `]]>`, failing
at end of input. -/
def cdataLoop : Nat → String → PM String
  | 0, _ => pfail
  | n + 1, acc => fun s =>
    if s.tests "]]>" then (some acc, s)
    else if s.isEnd then (none, s)
    else cdataLoop n (acc.push s.get) s.step

/-- `parseCDSect`: `CDSect ::= CDStart CData CDEnd`. -/
def parseCDSect : PM String := do
  Musts "<![CDATA["
  let str ← fun s => cdataLoop (s.src.length + 1 - s.cur) "" s
  stepNM 3
  pure str

/-- `parseMisc`: `Misc ::= Comment | PI | S`; whitespace yields no stored
node (`nil` in Go, `none` here). -/
def parseMisc : PM (Option Misc) := do
  let c1 ← testsM "<!--"
  if c1 then do
    let c ← parseComment
    pure (some (Misc.comment c))
  else do
    let c2 ← testsM "<?"
    if c2 then do
      let pt ← parsePI
      pure (some (Misc.pi pt))
    else do
      let sp ← peekM
      if isSpace sp then do
        skipSpace
        pure (none : Option Misc)
      else pfail

/-! ## References -/

/-- The shared shape of the digit loops in `parseCharRef`: require at
least one character satisfying `pred`, then collect the whole run. -/
def takeWhile1 (pred : Char → Bool) : PM String := fun s =>
  if pred s.get then
    let cs := (s.src.drop s.cur).takeWhile pred
    (some (String.mk cs), { s with cur := s.cur + cs.length })
  else (none, s)

/-- `parseCharRef`: `CharRef ::= &# [0-9]+ ; | &#x [0-9a-fA-F]+ ;` per
the grammar comment; the hex branch of the code accepts `isNum || isAlpha`
characters. -/
def parseCharRef : PM CharRef := do
  let hx ← testsM "&#x"
  if hx then do
    stepNM 3
    let v ← takeWhile1 (fun c => isNum c || isAlpha c)
    Must ';'
    pure ⟨"&#x", v⟩
  else do
    let hd ← testsM "&#"
    if hd then do
      stepNM 2
      let v ← takeWhile1 isNum
      Must ';'
      pure ⟨"&#", v⟩
    else pfail

/-- `parseEntityRef`: `EntityRef ::= & Name ;`. -/
def parseEntityRef : PM EntityRef := do
  Must '&'
  let n ← parseName
  Must ';'
  pure ⟨n⟩

/-- `parsePERef`: `PEReference ::= % Name ;`. -/
def parsePERef : PM PERef := do
  Must '%'
  let n ← parseName
  Must ';'
  pure ⟨n⟩

/-- `parseReference`: `Reference ::= EntityRef | CharRef`; the entry
cursor is saved, and after a failed `parseEntityRef` only the cursor is
restored before attempting `parseCharRef`. -/
def parseReference : PM Ref := fun s =>
  let cur := s.cur
  match parseEntityRef s with
  | (some e, t) => (some (Ref.entityRef e), t)
  | (none, t) =>
    match parseCharRef { t with cur := cur } with
    | (some c, u) => (some (Ref.charRef c), u)
    | (none, u) => (none, u)

/-! ## Quoted literals -/

/-- Value loop of `parseAttValue`: literal `<` is rejected, the loop
stops at the quote or the end of input, `&` starts a Reference segment,
and a pending text run is flushed when non-empty. -/
def attValueLoop : Nat → Char → List AttSeg → String → PM (List AttSeg)
  | 0, _, _, _ => pfail
  | n + 1, q, res, str => fun s =>
    if s.test '<' then (none, s)
    else if s.test q || s.isEnd then
      (some (if str.length > 0 then res ++ [AttSeg.text str] else res), s)
    else if s.test '&' then
      let res1 := if str.length > 0 then res ++ [AttSeg.text str] else res
      match parseReference s with
      | (some r, t) => attValueLoop n q (res1 ++ [AttSeg.ref r]) "" t
      | (none, t) => (none, t)
    else attValueLoop n q res (str.push s.get) s.step

/-- `parseAttValue`: `AttValue ::= quoted ([^<&] | Reference)*`. -/
def parseAttValue : PM AttValue := do
  let q ← parseQuote
  let res ← fun s => attValueLoop (s.src.length + 1 - s.cur) q [] "" s
  Must q
  pure res

/-- Value loop of `parseEntityValue`: like `attValueLoop` but `%` starts
a PERef segment, `&` tries EntityRef then (after restoring the saved
cursor) CharRef, and a literal `<` is allowed. -/
def entityValueLoop : Nat → Char → List EntSeg → String → PM (List EntSeg)
  | 0, _, _, _ => pfail
  | n + 1, q, res, str => fun s =>
    if s.test q || s.isEnd then
      (some (if str.length > 0 then res ++ [EntSeg.text str] else res), s)
    else
      let cur := s.cur
      if s.test '&' then
        let res1 := if str.length > 0 then res ++ [EntSeg.text str] else res
        match parseEntityRef s with
        | (some e, t) => entityValueLoop n q (res1 ++ [EntSeg.eref e]) "" t
        | (none, t) =>
          match parseCharRef { t with cur := cur } with
          | (some c, u) => entityValueLoop n q (res1 ++ [EntSeg.cref c]) "" u
          | (none, u) => (none, u)
      else if s.test '%' then
        let res1 := if str.length > 0 then res ++ [EntSeg.text str] else res
        match parsePERef s with
        | (some pr, t) => entityValueLoop n q (res1 ++ [EntSeg.pref pr]) "" t
        | (none, t) => (none, t)
      else entityValueLoop n q res (str.push s.get) s.step

/-- `parseEntityValue`:
`EntityValue ::= quoted ([^%&] | PEReference | Reference)*`. -/
def parseEntityValue : PM EntityValue := do
  let q ← parseQuote
  let res ← fun s => entityValueLoop (s.src.length + 1 - s.cur) q [] "" s
  Must q
  pure res

/-- Body loop of `parseSystemLiteral`: consume up to the closing quote,
failing if the end of input is passed first; on normal exit the closing
quote is consumed. -/
def sysLoop : Nat → Char → String → PM String
  | 0, _, _ => pfail
  | n + 1, q, acc => fun s =>
    if s.test q then (some acc, s.step)
    else
      let s1 := s.step
      if s1.isEnd then (none, s1)
      else sysLoop n q (acc.push s.get) s1

/-- `parseSystemLiteral`: `SystemLiteral ::= quoted [^quote]*`. -/
def parseSystemLiteral : PM String := do
  let q ← parseQuote
  fun s => sysLoop (s.src.length + 1 - s.cur) q "" s

/-- `parsePubidLiteral`: `PubidLiteral ::= " PubidChar* " | ' (PubidChar - ')* '`. -/
def parsePubidLiteral : PM String := do
  let q ← parseQuote
  let cs ← takeWhileP (fun c => isPubidChar c && !(c = squote && q = squote))
  Must q
  pure (String.mk cs)

/-! ## Element -/

/-- `parseAttribute`: `Attribute ::= Name Eq AttValue`. -/
def parseAttribute : PM Attribute := do
  let n ← parseName
  parseEq
  let v ← parseAttValue
  pure ⟨n, v⟩

/-- `parseETag`: `ETag ::= </ Name S? >`. -/
def parseETag : PM String := do
  Musts "</"
  let n ← parseName
  skipSpace
  Must '>'
  pure n

/-- The attribute loop of `parseElement`:
`for isSpace(Get) { skipSpace; stop at >, /> or end; parseAttribute }`. -/
def attrsLoop : Nat → List Attribute → PM (List Attribute)
  | 0, _ => pfail
  | n + 1, acc => fun s =>
    if isSpace s.get then
      let s1 := (skipSpace s).2
      if s1.test '>' || s1.tests "/>" || s1.isEnd then (some acc, s1)
      else
        match parseAttribute s1 with
        | (some a, t) => attrsLoop n (acc ++ [a]) t
        | (none, t) => (none, t)
    else (some acc, s)

/-- `isOnlySpaces`: is every code point of the string an XML space? -/
def isOnlySpaces (str : String) : Bool := str.toList.all isSpace

/-- The pending-text-run flush of `parseContents`: append the run only
when it is non-empty and not composed entirely of spaces. -/
def flushCD (res : List Content) (cd : String) : List Content :=
  if cd.length > 0 then
    if isOnlySpaces cd then res else res ++ [Content.text cd]
  else res

mutual
/-- `parseElement`: `element ::= EmptyElemTag | STag content ETag`; the
end-tag name must equal the start-tag name exactly.  The `fuel` argument
bounds the `element`/`content` mutual recursion; every recursive call
follows at least one consumed code point, so any fuel exceeding the input
length is never exhausted. -/
def parseElement : Nat → PM Element
  | 0 => pfail
  | fuel + 1 => do
    Must '<'
    let name ← parseName
    let attrs ← fun s => attrsLoop (s.src.length + 1 - s.cur) [] s
    let gt ← testM '>'
    if gt then do
      stepM
      let contents ← parseContentsAux fuel [] ""
      let endName ← parseETag
      if endName = name then pure (Element.mk name attrs contents false)
      else pfail
    else do
      let em ← testsM "/>"
      if em then do
        stepNM 2
        pure (Element.mk name attrs [] true)
      else pfail

/-- The loop of `parseContents` with its two mutable locals (`res` and
the pending text run `charData`) as accumulators.  `&` attempts a
Reference, `<!` attempts CDSect then Comment, `<?` attempts PI, any other
`<` attempts a nested Element; a failed attempt restores the saved cursor
and exits the loop without error; other characters accumulate into the
text run; the loop also exits at the end of input or at `]]>`. -/
def parseContentsAux : Nat → List Content → String → PM (List Content)
  | 0, res, cd => fun s => (some (flushCD res cd), s)
  | fuel + 1, res, cd => fun s =>
    let cur := s.cur
    if s.test '&' then
      match parseReference s with
      | (some r, t) => parseContentsAux fuel (flushCD res cd ++ [Content.ref r]) "" t
      | (none, t) => (some (flushCD res cd), { t with cur := cur })
    else if s.test '<' then
      if s.tests "<!" then
        match parseCDSect s with
        | (some d, t) => parseContentsAux fuel (flushCD res cd ++ [Content.cdata d]) "" t
        | (none, t) =>
          match parseComment { t with cur := cur } with
          | (some c, u) => parseContentsAux fuel (flushCD res cd ++ [Content.comment c]) "" u
          | (none, u) => (some (flushCD res cd), { u with cur := cur })
      else if s.tests "<?" then
        match parsePI s with
        | (some pt, t) => parseContentsAux fuel (flushCD res cd ++ [Content.pi pt]) "" t
        | (none, t) => (some (flushCD res cd), { t with cur := cur })
      else
        match parseElement fuel s with
        | (some e, t) => parseContentsAux fuel (flushCD res cd ++ [Content.elem e]) "" t
        | (none, t) => (some (flushCD res cd), { t with cur := cur })
    else
      if s.isEnd || s.tests "]]>" then (some (flushCD res cd), s)
      else parseContentsAux fuel res (cd.push s.get) s.step
end

/-- `parseContents`: `content ::= (element | CharData | Reference |
CDSect | PI | Comment)*`; never fails. -/
def parseContents (fuel : Nat) : PM (List Content) := parseContentsAux fuel [] ""

/-! ## Element-content models -/

/-- The repetition-suffix read shared by `parseChildren` and `parseCP`:
consume `?`, `*` or `+` when present. -/
def readSuffix : PM (Option Char) := fun s =>
  if s.test '?' || s.test '*' || s.test '+' then (some (some s.get), s.step)
  else (some none, s)

mutual
/-- `parseCP`: `cp ::= (Name | choice | seq) (? | * | +)?`; on `(`,
try choice and, after restoring the saved cursor, seq. -/
def parseCP : Nat → PM CP
  | 0 => pfail
  | f + 1 => fun s =>
    let base : Option (String × Option ChoiceSeq) × PState :=
      if s.test '(' then
        let cur := s.cur
        match parseChoice f s with
        | (some ch, t) => (some ("", some (ChoiceSeq.choice ch)), t)
        | (none, t) =>
          match parseSeq f { t with cur := cur } with
          | (some sq, u) => (some ("", some (ChoiceSeq.seq sq)), u)
          | (none, u) => (none, u)
      else
        match parseName s with
        | (some n, t) => (some (n, none), t)
        | (none, t) => (none, t)
    match base with
    | (some (n, g), t) =>
      match readSuffix t with
      | (some sfx, u) => (some (CP.mk n g sfx), u)
      | (none, u) => (none, u)
    | (none, t) => (none, t)

/-- `parseChoice`: `choice ::= ( S? cp ( S? | S? cp )* S? )`. -/
def parseChoice : Nat → PM (List CP)
  | 0 => pfail
  | f + 1 => do
    Must '('
    skipSpace
    let cp ← parseCP f
    let cps ← choiceLoop f [cp]
    Must ')'
    pure cps

/-- The separator loop of `parseChoice`. -/
def choiceLoop : Nat → List CP → PM (List CP)
  | 0, _ => pfail
  | f + 1, acc => do
    skipSpace
    let b ← testM '|'
    if b then do
      stepM
      let cp ← parseCP f
      choiceLoop f (acc ++ [cp])
    else pure acc

/-- `parseSeq`: `seq ::= ( S? cp ( S? , S? cp )* S? )`. -/
def parseSeq : Nat → PM (List CP)
  | 0 => pfail
  | f + 1 => do
    Must '('
    skipSpace
    let cp ← parseCP f
    let cps ← seqLoop f [cp]
    Must ')'
    pure cps

/-- The separator loop of `parseSeq`. -/
def seqLoop : Nat → List CP → PM (List CP)
  | 0, _ => pfail
  | f + 1, acc => do
    skipSpace
    let b ← testM ','
    if b then do
      stepM
      let cp ← parseCP f
      seqLoop f (acc ++ [cp])
    else pure acc
end

/-- `parseChildren`: `children ::= (choice | seq) (? | * | +)?`; try
choice, and after restoring the saved cursor, seq. -/
def parseChildren (f : Nat) : PM Children := fun s =>
  let cur := s.cur
  match parseChoice f s with
  | (some ch, t) =>
    match readSuffix t with
    | (some sfx, u) => (some ⟨ChoiceSeq.choice ch, sfx⟩, u)
    | (none, u) => (none, u)
  | (none, t) =>
    match parseSeq f { t with cur := cur } with
    | (some sq, u) =>
      match readSuffix u with
      | (some sfx, v) => (some ⟨ChoiceSeq.seq sq, sfx⟩, v)
      | (none, v) => (none, v)
    | (none, v) => (none, v)

/-- The name loop of `parseMixed`: stops by consuming `)`, fails at end
of input, otherwise requires `| S? Name`. -/
def mixedLoop : Nat → List String → PM (List String)
  | 0, _ => pfail
  | n + 1, acc => fun s =>
    let s1 := (skipSpace s).2
    if s1.test ')' then (some acc, s1.step)
    else if s1.isEnd then (none, s1)
    else
      match Must '|' s1 with
      | (none, t) => (none, t)
      | (some _, t) =>
        let t1 := (skipSpace t).2
        match parseName t1 with
        | (none, u) => (none, u)
        | (some nm, u) => mixedLoop n (acc ++ [nm]) u

/-- `parseMixed`:
`Mixed ::= ( S? #PCDATA (S? | S? Name)* S? )* | ( S? #PCDATA S? )`;
a trailing `*` is required exactly when the name list is non-empty. -/
def parseMixed : PM Mixed := fun s =>
  match Must '(' s with
  | (none, t) => (none, t)
  | (some _, t) =>
    match Musts "#PCDATA" ((skipSpace t).2) with
    | (none, u) => (none, u)
    | (some _, u) =>
      match mixedLoop (u.src.length + 1 - u.cur) [] u with
      | (none, v) => (none, v)
      | (some names, v) =>
        if names.length > 0 then
          match Must '*' v with
          | (some _, w) => (some ⟨names⟩, w)
          | (none, w) => (none, w)
        else (some ⟨names⟩, v)

/-- `parseContentSpec`: `contentspec ::= EMPTY | ANY | Mixed | children`;
after the two literals, try Mixed and, restoring the saved cursor on
failure, children. -/
def parseContentSpec (f : Nat) : PM ContentSpec := fun s =>
  if s.tests "EMPTY" then (some ContentSpec.empty, s.stepN "EMPTY".toList.length)
  else if s.tests "ANY" then (some ContentSpec.any, s.stepN "ANY".toList.length)
  else
    let cur := s.cur
    match parseMixed s with
    | (some m, t) => (some (ContentSpec.mixed m), t)
    | (none, t) =>
      match parseChildren f { t with cur := cur } with
      | (some ch, u) => (some (ContentSpec.children ch), u)
      | (none, u) => (none, u)

/-- `parseElementDecl`: `elementdecl ::= <!ELEMENT S Name S contentspec S? >`. -/
def parseElementDecl (f : Nat) : PM ElementDecl := do
  Musts "<!ELEMENT"
  parseSpace
  let n ← parseName
  parseSpace
  let c ← parseContentSpec f
  skipSpace
  Must '>'
  pure ⟨n, c⟩

/-! ## Attribute-list declarations -/

/-- `parseNmtoken`: `Nmtoken ::= (NameChar)+`. -/
def parseNmtoken : PM String := fun s =>
  let cs := (s.src.drop s.cur).takeWhile isNameChar
  if cs.length = 0 then (none, s)
  else (some (String.mk cs), { s with cur := s.cur + cs.length })

/-- The case loop of `parseEnum`: saves the cursor, skips space, stops by
consuming `)`, fails at end of input, otherwise restores the cursor and
requires `S? | S? Nmtoken`. -/
def enumLoop : Nat → List String → PM (List String)
  | 0, _ => pfail
  | n + 1, acc => fun s =>
    let cur := s.cur
    let s1 := (skipSpace s).2
    if s1.test ')' then (some acc, s1.step)
    else if s1.isEnd then (none, s1)
    else
      let s2 := (skipSpace { s1 with cur := cur }).2
      if s2.test '|' then
        let s3 := (skipSpace s2.step).2
        match parseNmtoken s3 with
        | (some nm, t) => enumLoop n (acc ++ [nm]) t
        | (none, t) => (none, t)
      else (none, s2)

/-- `parseEnum`: `Enumeration ::= ( S? Nmtoken (S? | S? Nmtoken)* S? )`. -/
def parseEnum : PM Enum := do
  Must '('
  skipSpace
  let nm ← parseNmtoken
  let cases ← fun s => enumLoop (s.src.length + 1 - s.cur) [nm] s
  pure ⟨cases⟩

/-- The name loop of `parseNotationType`; same shape as `enumLoop` with
Names in place of Nmtokens. -/
def notationLoop : Nat → List String → PM (List String)
  | 0, _ => pfail
  | n + 1, acc => fun s =>
    let cur := s.cur
    let s1 := (skipSpace s).2
    if s1.test ')' then (some acc, s1.step)
    else if s1.isEnd then (none, s1)
    else
      let s2 := (skipSpace { s1 with cur := cur }).2
      if s2.test '|' then
        let s3 := (skipSpace s2.step).2
        match parseName s3 with
        | (some nm, t) => notationLoop n (acc ++ [nm]) t
        | (none, t) => (none, t)
      else (none, s2)

/-- `parseNotationType`: `NotationType ::= NOTATION S ( S? Name (S? | S? Name)* S? )`. -/
def parseNotationType : PM NotationType := do
  Musts "NOTATION"
  parseSpace
  Must '('
  skipSpace
  let t ← parseName
  let names ← fun s => notationLoop (s.src.length + 1 - s.cur) [t] s
  pure ⟨names⟩

/-- `parseAttType`: `AttType ::= StringType | TokenizedType |
EnumeratedType`; the tokenized keywords with common prefixes are resolved
by re-testing the longer literal (`ID` then `IDREF` then `IDREFS`;
`NMTOKEN` then `NMTOKENS`), after which the cursor advances by the length
of the chosen keyword. -/
def parseAttType : PM AttType := fun s =>
  if s.tests (AttToken.CDATA.ToString) then
    (some (AttType.tok .CDATA), s.stepN (AttToken.CDATA.ToString).toList.length)
  else if s.tests "ID" || s.tests "IDREF" || s.tests "IDREFS" ||
      s.tests "ENTITY" || s.tests "ENTITIES" ||
      s.tests "NMTOKEN" || s.tests "NMTOKENS" then
    let tok : AttToken :=
      if s.tests "ID" then
        if s.tests "IDREF" then
          if s.tests "IDREFS" then .IDREFS else .IDREF
        else .ID
      else if s.tests "ENTITY" then .ENTITY
      else if s.tests "ENTITIES" then .ENTITIES
      else if s.tests "NMTOKEN" then
        if s.tests "NMTOKENS" then .NMTOKENS else .NMTOKEN
      -- unreachable: every disjunct of the guard implies one of the
      -- switch cases above; the Go zero value of the enum is modelled
      else .CDATA
    (some (AttType.tok tok), s.stepN tok.ToString.toList.length)
  else if s.tests "NOTATION" then
    match parseNotationType s with
    | (some n, t) => (some (AttType.notation_ n), t)
    | (none, t) => (none, t)
  else if s.test '(' then
    match parseEnum s with
    | (some e, t) => (some (AttType.enum e), t)
    | (none, t) => (none, t)
  else (none, s)

/-- `parseDefaultDecl`:
`DefaultDecl ::= #REQUIRED | #IMPLIED | ((#FIXED S)? AttValue)`; a plain
default value is stored with the FIXED kind, as in the Go code. -/
def parseDefaultDecl : PM DefaultDecl := fun s =>
  if s.tests (DefaultDeclType.REQUIRED.ToString) then
    (some ⟨.REQUIRED, none⟩, s.stepN (DefaultDeclType.REQUIRED.ToString).toList.length)
  else if s.tests (DefaultDeclType.IMPLIED.ToString) then
    (some ⟨.IMPLIED, none⟩, s.stepN (DefaultDeclType.IMPLIED.ToString).toList.length)
  else
    let fixed : Option Unit × PState :=
      if s.tests (DefaultDeclType.FIXED.ToString) then
        parseSpace (s.stepN (DefaultDeclType.FIXED.ToString).toList.length)
      else (some (), s)
    match fixed with
    | (some _, t) =>
      match parseAttValue t with
      | (some v, u) => (some ⟨.FIXED, some v⟩, u)
      | (none, u) => (none, u)
    | (none, t) => (none, t)

/-- `parseAttDef`: `AttDef ::= S Name S AttType S DefaultDecl`. -/
def parseAttDef : PM AttDef := do
  parseSpace
  let n ← parseName
  parseSpace
  let ty ← parseAttType
  parseSpace
  let d ← parseDefaultDecl
  pure ⟨n, ty, d⟩

/-- The definition loop of `parseAttlist`: saves the cursor, skips space,
stops by consuming `>`, fails at end of input, otherwise restores the
cursor and parses an AttDef. -/
def attlistLoop : Nat → List AttDef → PM (List AttDef)
  | 0, _ => pfail
  | n + 1, acc => fun s =>
    let cur := s.cur
    let s1 := (skipSpace s).2
    if s1.test '>' then (some acc, s1.step)
    else if s1.isEnd then (none, s1)
    else
      match parseAttDef { s1 with cur := cur } with
      | (some d, t) => attlistLoop n (acc ++ [d]) t
      | (none, t) => (none, t)

/-- `parseAttlist`: `AttlistDecl ::= <!ATTLIST S Name AttDef* S? >`. -/
def parseAttlist : PM Attlist := do
  Musts "<!ATTLIST"
  parseSpace
  let n ← parseName
  let defs ← fun s => attlistLoop (s.src.length + 1 - s.cur) [] s
  pure ⟨n, defs⟩

/-! ## Entity and notation declarations -/

/-- `parseExternalID`:
`ExternalID ::= SYSTEM S SystemLiteral | PUBLIC S PubidLiteral S SystemLiteral`. -/
def parseExternalID : PM ExternalID := do
  let sys ← testsM "SYSTEM"
  let ty ←
    if sys then do
      stepNM "SYSTEM".toList.length
      pure ExternalType.system
    else do
      let pb ← testsM "PUBLIC"
      if pb then do
        stepNM "PUBLIC".toList.length
        pure ExternalType.public
      else pfail
  parseSpace
  let pubid ←
    if ty = ExternalType.public then do
      let p ← parsePubidLiteral
      parseSpace
      pure p
    else pure ""
  let sysLit ← parseSystemLiteral
  pure ⟨ty, pubid, sysLit⟩

/-- `parseNData`: `NDataDecl ::= S NDATA S Name`. -/
def parseNData : PM String := do
  parseSpace
  Musts "NDATA"
  parseSpace
  parseName

/-- `parseEntityDef`: `EntityDef ::= EntityValue | (ExternalID
NDataDecl?)`; the triple mirrors the Go multi-value return
`(value, ext, ndata)`, and a failed NData attempt restores the saved
cursor and leaves ndata at its zero value. -/
def parseEntityDef : PM (Option EntityValue × Option ExternalID × String) := fun s =>
  if s.test squote || s.test '"' then
    match parseEntityValue s with
    | (some v, t) => (some (some v, none, ""), t)
    | (none, t) => (none, t)
  else if s.tests "SYSTEM" || s.tests "PUBLIC" then
    match parseExternalID s with
    | (some ext, t) =>
      let cur := t.cur
      match parseNData t with
      | (some nd, u) => (some (none, some ext, nd), u)
      | (none, u) => (some (none, some ext, ""), { u with cur := cur })
    | (none, t) => (none, t)
  else (none, s)

/-- `parsePEDef`: `PEDef ::= EntityValue | ExternalID`. -/
def parsePEDef : PM (Option EntityValue × Option ExternalID) := fun s =>
  if s.test squote || s.test '"' then
    match parseEntityValue s with
    | (some v, t) => (some (some v, none), t)
    | (none, t) => (none, t)
  else if s.tests "SYSTEM" || s.tests "PUBLIC" then
    match parseExternalID s with
    | (some ext, t) => (some (none, some ext), t)
    | (none, t) => (none, t)
  else (none, s)

/-- `parseEntity`: `EntityDecl ::= GEDecl | PEDecl`; a `%` after the
keyword selects a parameter entity. -/
def parseEntity : PM Entity := do
  Musts "<!ENTITY"
  parseSpace
  let isPE ← testM '%'
  let ty ←
    if isPE then do
      stepM
      parseSpace
      pure EntityType.pe
    else pure EntityType.ge
  let n ← parseName
  parseSpace
  let vxn ←
    if ty = EntityType.pe then do
      let vx ← parsePEDef
      pure (vx.1, vx.2, "")
    else parseEntityDef
  skipSpace
  Must '>'
  pure ⟨ty, n, vxn.1, vxn.2.1, vxn.2.2⟩

/-- `parseNotation`:
`NotationDecl ::= <!NOTATION S Name S (ExternalID | PublicID) S? >`;
in the PUBLIC case the system literal is optional, with a cursor
save/restore around the `S SystemLiteral` attempt. -/
def parseNotation : PM Notation := do
  Musts "<!NOTATION"
  parseSpace
  let n ← parseName
  parseSpace
  let sys ← testsM "SYSTEM"
  let ty ←
    if sys then do
      stepNM "SYSTEM".toList.length
      pure ExternalType.system
    else do
      let pb ← testsM "PUBLIC"
      if pb then do
        stepNM "PUBLIC".toList.length
        pure ExternalType.public
      else pfail
  parseSpace
  let ext ←
    if ty = ExternalType.public then do
      let pubid ← parsePubidLiteral
      let sysl ← fun s =>
        let cur := s.cur
        match parseSpace s with
        | (some _, t) =>
          match parseSystemLiteral t with
          | (some sy, u) => (some sy, u)
          | (none, u) => (some "", { u with cur := cur })
        | (none, t) => (some "", { t with cur := cur })
      pure (ExternalID.mk ty pubid sysl)
    else do
      let sy ← parseSystemLiteral
      pure (ExternalID.mk ty "" sy)
  skipSpace
  Must '>'
  pure ⟨n, ext⟩

/-! ## DOCTYPE, prolog and document -/

/-- `parseMarkup`: `markupdecl ::= elementdecl | AttlistDecl | EntityDecl
| NotationDecl | PI | Comment`, dispatched on the literal at the cursor. -/
def parseMarkup (f : Nat) : PM Markup := fun s =>
  if s.tests "<!ELEMENT" then
    match parseElementDecl f s with
    | (some d, t) => (some (Markup.elementDecl d), t)
    | (none, t) => (none, t)
  else if s.tests "<!ATTLIST" then
    match parseAttlist s with
    | (some a, t) => (some (Markup.attlist a), t)
    | (none, t) => (none, t)
  else if s.tests "<!ENTITY" then
    match parseEntity s with
    | (some e, t) => (some (Markup.entity e), t)
    | (none, t) => (none, t)
  else if s.tests "<!NOTATION" then
    match parseNotation s with
    | (some n, t) => (some (Markup.notation_ n), t)
    | (none, t) => (none, t)
  else if s.tests "<?" then
    match parsePI s with
    | (some p, t) => (some (Markup.pi p), t)
    | (none, t) => (none, t)
  else if s.tests "<!--" then
    match parseComment s with
    | (some c, t) => (some (Markup.comment c), t)
    | (none, t) => (none, t)
  else (none, s)

/-- The internal-subset loop of `parseDoctype`: markup declarations are
collected in order, `%name;` sets the trailing PERef (last one wins),
whitespace is skipped, and any other character ends the loop. -/
def doctypeLoop : Nat → Nat → List Markup → Option PERef → PM (List Markup × Option PERef)
  | 0, _, _, _ => pfail
  | n + 1, f, acc, pe => fun s =>
    if s.tests "<!ELEMENT" || s.tests "<!ATTLIST" || s.tests "<!ENTITY" ||
        s.tests "<!NOTATION" || s.tests "<?" || s.tests "<!--" then
      match parseMarkup f s with
      | (some m, t) => doctypeLoop n f (acc ++ [m]) pe t
      | (none, t) => (none, t)
    else if s.test '%' then
      match parsePERef s with
      | (some r, t) => doctypeLoop n f acc (some r) t
      | (none, t) => (none, t)
    else if isSpace s.get then doctypeLoop n f acc pe (skipSpace s).2
    else (some (acc, pe), s)

/-- `parseDoctype`: `doctypedecl ::= <!DOCTYPE S Name (S ExternalID)? S?
([ (markupdecl | PEReference | S)* ] S?)? >`. -/
def parseDoctype (f : Nat) : PM DOCType := do
  Musts "<!DOCTYPE"
  parseSpace
  let n ← parseName
  skipSpace
  let hasExt ← fun s => (some (s.tests "SYSTEM" || s.tests "PUBLIC"), s)
  let ext ←
    if hasExt then do
      let e ← parseExternalID
      skipSpace
      pure (some e)
    else pure (none : Option ExternalID)
  let hasSubset ← testM '['
  let mp ←
    if hasSubset then do
      stepM
      let mp ← fun s => doctypeLoop (s.src.length + 1 - s.cur) f [] none s
      Must ']'
      pure mp
    else pure ([], (none : Option PERef))
  skipSpace
  Must '>'
  pure ⟨n, ext, mp.1, mp.2⟩

/-- The shared Misc* loop of `parse` and `parseProlog`: attempt Misc,
collecting comments and PIs; a failed attempt restores the saved cursor
and ends the loop without error. -/
def miscLoop : Nat → List Misc → PM (List Misc)
  | 0, acc => fun s => (some acc, s)
  | n + 1, acc => fun s =>
    let cur := s.cur
    match parseMisc s with
    | (none, t) => (some acc, { t with cur := cur })
    | (some om, t) =>
      match om with
      | some m => miscLoop n (acc ++ [m]) t
      | none => miscLoop n acc t

/-- `parseProlog`: `prolog ::= XMLDecl? Misc* (doctypedecl Misc*)?`. -/
def parseProlog (f : Nat) : PM Prolog := do
  skipSpace
  let hasDecl ← testsM "<?xml"
  let xd ←
    if hasDecl then do
      let x ← parseXmlDecl
      pure (some x)
    else pure (none : Option XMLDecl)
  let m1 ← fun s => miscLoop (s.src.length + 1 - s.cur) [] s
  let hasDoc ← testsM "<!DOCTYPE"
  if hasDoc then do
    let d ← parseDoctype f
    let m2 ← fun s => miscLoop (s.src.length + 1 - s.cur) [] s
    pure (Prolog.mk xd m1 (some d) m2)
  else pure (Prolog.mk xd m1 none [])

/-- `parse`: `document ::= prolog element Misc*`; the trailing Misc loop
ends by restoring the cursor at the first construct that is not a
comment, a PI or whitespace, and the document is returned successfully. -/
def parse (f : Nat) : PM XML := do
  let pro ← parseProlog f
  let el ← parseElement f
  let ms ← fun s => miscLoop (s.src.length + 1 - s.cur) [] s
  pure ⟨pro, el, ms⟩

/-! ## Monad lemmas -/

theorem bind_def {α β : Type} (m : PM α) (f : α → PM β) :
    (m >>= f) = PM.bind m f := rfl

theorem bind_ok {α β : Type} {m : PM α} {f : α → PM β} {s t : PState} {a : α}
    (h : m s = (some a, t)) : (m >>= f) s = f a t := by
  show PM.bind m f s = f a t
  unfold PM.bind
  rw [h]

theorem bind_err {α β : Type} {m : PM α} {f : α → PM β} {s t : PState}
    (h : m s = (none, t)) : (m >>= f) s = (none, t) := by
  show PM.bind m f s = (none, t)
  unfold PM.bind
  rw [h]

theorem pure_apply {α : Type} (a : α) (s : PState) :
    (Pure.pure a : PM α) s = (some a, s) := rfl

theorem bind_inv_ok {α β : Type} {m : PM α} {f : α → PM β} {s u : PState} {b : β}
    (h : (m >>= f) s = (some b, u)) :
    ∃ a t, m s = (some a, t) ∧ f a t = (some b, u) := by
  rw [bind_def] at h
  unfold PM.bind at h
  rcases hm : m s with ⟨oa, t⟩
  rw [hm] at h
  cases oa with
  | some a => exact ⟨a, t, rfl, h⟩
  | none => simp at h

/-! ## Source preservation

Every parsing operation only moves the cursor; the code-point buffer is
immutable.  Only the operations involved in the claims need this spelled
out. -/

theorem Must_src (r : Char) (s : PState) : ((Must r s).2).src = s.src := by
  unfold Must
  split <;> rfl

theorem parseName_src (s : PState) : ((parseName s).2).src = s.src := by
  unfold parseName
  split <;> rfl

theorem PM.bind_src {α β : Type} {m : PM α} {f : α → PM β}
    (hm : ∀ s, ((m s).2).src = s.src) (hf : ∀ a s, ((f a s).2).src = s.src) :
    ∀ s, (((m >>= f) s).2).src = s.src := by
  intro s
  rw [bind_def]
  unfold PM.bind
  rcases h : m s with ⟨oa, t⟩
  have ht : t.src = s.src := by
    have := hm s
    rw [h] at this
    exact this
  cases oa with
  | some a =>
    simp only []
    rw [hf a t, ht]
  | none => exact ht

/-! ## Loop lemmas -/

/-- The Misc* loop never fails: it collects comments and PIs and ends
successfully at the first construct that is none of comment, PI or
whitespace. -/
theorem miscLoop_ok : ∀ (n : Nat) (acc : List Misc) (s : PState),
    ∃ r t, miscLoop n acc s = (some r, t) := by
  intro n
  induction n with
  | zero => exact fun acc s => ⟨acc, s, rfl⟩
  | succ n ih =>
    intro acc s
    simp only [miscLoop]
    rcases h : parseMisc s with ⟨om, t⟩
    cases om with
    | none => exact ⟨acc, _, rfl⟩
    | some om2 =>
      cases om2 with
      | none => exact ih acc t
      | some m => exact ih (acc ++ [m]) t

/-- When the Mixed name loop returns successfully, the code point it
consumed last is the closing parenthesis. -/
theorem mixedLoop_close : ∀ (n : Nat) (acc r : List String) (s t : PState),
    mixedLoop n acc s = (some r, t) →
    1 ≤ t.cur ∧ t.src.getD (t.cur - 1) sentinelChar = ')' := by
  intro n
  induction n with
  | zero =>
    intro acc r s t h
    simp [mixedLoop, pfail] at h
  | succ n ih =>
    intro acc r s t h
    simp only [mixedLoop] at h
    split at h
    · rename_i hclose
      obtain ⟨h1, h2⟩ := Prod.mk.injEq .. ▸ h
      obtain rfl : t = ((skipSpace s).2).step := h2.symm
      refine ⟨Nat.le_add_left 1 _, ?_⟩
      have hget : ((skipSpace s).2).get = ')' := by
        simpa [PState.test] using hclose
      simpa [PState.step, PState.get] using hget
    · split at h
      · simp at h
      · split at h
        · simp at h
        · split at h
          · simp at h
          · exact ih _ r _ t h

/-- A text run present in the output of the pending-text flush is
non-empty and not whitespace-only, provided the runs already flushed
were. -/
theorem flushCD_ws (res : List Content) (cd : String)
    (hres : ∀ str, Content.text str ∈ res → str ≠ "" ∧ isOnlySpaces str = false) :
    ∀ str, Content.text str ∈ flushCD res cd → str ≠ "" ∧ isOnlySpaces str = false := by
  intro str hmem
  unfold flushCD at hmem
  split at hmem
  · split at hmem
    · exact hres str hmem
    · rename_i hlen hsp
      rcases List.mem_append.mp hmem with h | h
      · exact hres str h
      · have heq : str = cd := by
          have := List.mem_singleton.mp h
          simpa using this
        subst heq
        refine ⟨?_, by simpa using hsp⟩
        intro hstr
        rw [hstr] at hlen
        simp at hlen
  · exact hres str hmem

/-- A text entry of `res ++ [it]` is an entry of `res` when `it` is not
a text entry. -/
theorem mem_append_content {res : List Content} {it : Content} {str : String}
    (h : Content.text str ∈ res ++ [it]) (hit : ∀ str2, it ≠ Content.text str2) :
    Content.text str ∈ res := by
  rcases List.mem_append.mp h with h2 | h2
  · exact h2
  · exact absurd (List.mem_singleton.mp h2).symm (hit str)

/-- Invariant of the content loop: assuming the accumulated list holds no
empty or whitespace-only text run, neither does the returned list. -/
theorem parseContentsAux_ws :
    ∀ (fuel : Nat) (res : List Content) (cd : String) (s : PState),
    (∀ str, Content.text str ∈ res → str ≠ "" ∧ isOnlySpaces str = false) →
    ∀ str, Content.text str ∈ ((parseContentsAux fuel res cd s).1.getD []) →
      str ≠ "" ∧ isOnlySpaces str = false := by
  intro fuel
  induction fuel with
  | zero =>
    intro res cd s hres str hmem
    simp only [parseContentsAux] at hmem
    exact flushCD_ws res cd hres str hmem
  | succ fuel ih =>
    intro res cd s hres str hmem
    have hstep : ∀ (it : Content), (∀ str2, it ≠ Content.text str2) →
        ∀ str2, Content.text str2 ∈ flushCD res cd ++ [it] →
          str2 ≠ "" ∧ isOnlySpaces str2 = false :=
      fun it hit str2 hm => flushCD_ws res cd hres str2 (mem_append_content hm hit)
    simp only [parseContentsAux] at hmem
    split at hmem
    · -- the `&` branch
      split at hmem
      · exact ih _ _ _ (hstep _ (by intro str2; simp)) str hmem
      · exact flushCD_ws res cd hres str hmem
    · split at hmem
      · -- the `<` branch
        split at hmem
        · -- `<!`: CDSect, then Comment
          split at hmem
          · exact ih _ _ _ (hstep _ (by intro str2; simp)) str hmem
          · split at hmem
            · exact ih _ _ _ (hstep _ (by intro str2; simp)) str hmem
            · exact flushCD_ws res cd hres str hmem
        · split at hmem
          · -- `<?`: PI
            split at hmem
            · exact ih _ _ _ (hstep _ (by intro str2; simp)) str hmem
            · exact flushCD_ws res cd hres str hmem
          · -- nested element
            split at hmem
            · exact ih _ _ _ (hstep _ (by intro str2; simp)) str hmem
            · exact flushCD_ws res cd hres str hmem
      · -- text accumulation or loop exit
        split at hmem
        · exact flushCD_ws res cd hres str hmem
        · exact ih _ _ _ hres str hmem

theorem parseEntityRef_src (s : PState) : ((parseEntityRef s).2).src = s.src := by
  have : ∀ s, (((Must '&' >>= fun _ =>
      parseName >>= fun n => Must ';' >>= fun _ => Pure.pure ⟨n⟩ : PM EntityRef) s).2).src = s.src := by
    refine PM.bind_src (Must_src '&') ?_
    intro _
    refine PM.bind_src parseName_src ?_
    intro n
    exact PM.bind_src (Must_src ';') (fun _ _ => rfl)
  exact this s

/-! ## Claims -/

/-- C1, counterexample: the claim that every production restores the
cursor to its entry position before returning failure is false for
`parseEntityRef`: on the input `&;` it is entered at cursor 0, consumes
the ampersand, fails on the missing Name, and returns failure with the
cursor left at 1. -/
theorem parseEntityRef_fail_advances_cursor :
    parseEntityRef ⟨"&;".toList, 0⟩ = (none, ⟨"&;".toList, 1⟩) ∧ (1 : Nat) ≠ 0 :=
  ⟨rfl, by decide⟩

/-- C1, amended: failing productions may leave the cursor advanced; the
cursor discipline lives in the callers that try ordered alternatives.
`parseReference` saves the entry cursor and, whenever `parseEntityRef`
fails, restores it before attempting `parseCharRef`, so the second
alternative runs from exactly the entry state. -/
theorem parseReference_restores_cursor (s : PState)
    (h : (parseEntityRef s).1 = none) :
    parseReference s = ((parseCharRef s).1.map Ref.charRef, (parseCharRef s).2) := by
  unfold parseReference
  rcases he : parseEntityRef s with ⟨oe, t⟩
  have htsrc : t.src = s.src := by
    have hs := parseEntityRef_src s
    rw [he] at hs
    exact hs
  cases oe with
  | some e =>
    rw [he] at h
    simp at h
  | none =>
    have hst : ({ t with cur := s.cur } : PState) = s := by
      cases s
      cases t
      simp only [PState.mk.injEq]
      exact ⟨htsrc, trivial⟩
    show (match parseCharRef { t with cur := s.cur } with
      | (some c, u) => (some (Ref.charRef c), u)
      | (none, u) => ((none : Option Ref), u)) =
      ((parseCharRef s).1.map Ref.charRef, (parseCharRef s).2)
    rw [hst]
    rcases hc : parseCharRef s with ⟨oc, u⟩
    cases oc <;> simp

/-- C1, witness: the amended backtracking property at the concrete input
`&#65;`, where the EntityRef alternative fails and the CharRef
alternative is attempted from the saved entry position. -/
theorem parseReference_restores_cursor_witness :
    parseReference ⟨"&#65;".toList, 0⟩ =
      ((parseCharRef ⟨"&#65;".toList, 0⟩).1.map Ref.charRef,
        (parseCharRef ⟨"&#65;".toList, 0⟩).2) :=
  parseReference_restores_cursor ⟨"&#65;".toList, 0⟩ (by decide)

/-- C2: `&#65;` parses as a decimal reference with value `65`, `&#x41;`
as a hex reference with value `41`, and `&#x;` fails; but after `&#x`
the code accepts every `isNum || isAlpha` code point, so `&#xT;` parses
successfully with value `T` even though `T` is outside the hex alphabet
0-9a-fA-F required by the grammar comment above `parseCharRef`. -/
theorem parseCharRef_accepts_nonhex_letters :
    parseCharRef ⟨"&#65;".toList, 0⟩ = (some ⟨"&#", "65"⟩, ⟨"&#65;".toList, 5⟩) ∧
    parseCharRef ⟨"&#x41;".toList, 0⟩ = (some ⟨"&#x", "41"⟩, ⟨"&#x41;".toList, 6⟩) ∧
    (parseCharRef ⟨"&#x;".toList, 0⟩).1 = none ∧
    parseCharRef ⟨"&#xT;".toList, 0⟩ = (some ⟨"&#x", "T"⟩, ⟨"&#xT;".toList, 5⟩) :=
  ⟨rfl, rfl, rfl, rfl⟩

/-- C3: after a successfully parsed Name, `parsePITarget` fails exactly
when the name contains at least one character of the six-character set
x, m, l, X, M, L — a character-existence test over the name, not a
case-insensitive equality test against the word xml. -/
theorem parsePITarget_charset (s : PState) (n : String) (t : PState)
    (h : parseName s = (some n, t)) :
    parsePITarget s = (if containsAnyXml n then (none, t) else (some n, t)) ∧
    (containsAnyXml n = true ↔
      ∃ c ∈ n.toList, c ∈ (['x', 'm', 'l', 'X', 'M', 'L'] : List Char)) := by
  constructor
  · unfold parsePITarget
    rw [bind_ok h]
    split <;> rfl
  · have hx : "xmlXML".toList = (['x', 'm', 'l', 'X', 'M', 'L'] : List Char) := rfl
    unfold containsAnyXml
    rw [hx]
    simp [List.any_eq_true]

/-- C3, witness: the name `box` is not the word xml under case folding,
yet `parsePITarget` rejects it because it contains the letter x. -/
theorem parsePITarget_charset_witness :
    parsePITarget ⟨"box".toList, 0⟩ = (none, ⟨"box".toList, 3⟩) ∧
    "box".toList.map Char.toLower ≠ "xml".toList := by
  constructor
  · have h := (parsePITarget_charset ⟨"box".toList, 0⟩ "box" ⟨"box".toList, 3⟩ rfl).1
    rw [h]
    rfl
  · decide

/-- C4: `<a></b>` fails (the end-tag name is compared exactly with the
start-tag name); `<a></a>` and `<a/>` both succeed with name `a`, no
attributes and empty Contents, differing only in the empty-tag flag. -/
theorem parseElement_tag_matching :
    (parseElement 50 ⟨"<a></b>".toList, 0⟩).1 = none ∧
    parseElement 50 ⟨"<a></a>".toList, 0⟩ =
      (some (Element.mk "a" [] [] false), ⟨"<a></a>".toList, 7⟩) ∧
    parseElement 50 ⟨"<a/>".toList, 0⟩ =
      (some (Element.mk "a" [] [] true), ⟨"<a/>".toList, 4⟩) :=
  ⟨rfl, rfl, rfl⟩

/-- C5: `(#PCDATA)` parses to an empty name list, `(#PCDATA|a|b)*` to the
ordered list `a, b`, and `(#PCDATA|a)` without the trailing `*` fails;
in general, whenever `parseMixed` succeeds with a non-empty name list the
last consumed code point is the mandatory `*`. -/
theorem parseMixed_star_required :
    parseMixed ⟨"(#PCDATA)".toList, 0⟩ = (some ⟨[]⟩, ⟨"(#PCDATA)".toList, 9⟩) ∧
    parseMixed ⟨"(#PCDATA|a|b)*".toList, 0⟩ =
      (some ⟨["a", "b"]⟩, ⟨"(#PCDATA|a|b)*".toList, 14⟩) ∧
    (parseMixed ⟨"(#PCDATA|a)".toList, 0⟩).1 = none ∧
    (∀ s m t, parseMixed s = (some m, t) → m.names ≠ [] →
      1 ≤ t.cur ∧ t.src.getD (t.cur - 1) sentinelChar = '*') := by
  refine ⟨rfl, rfl, rfl, ?_⟩
  intro s m t h hne
  unfold parseMixed at h
  split at h
  · simp at h
  · split at h
    · simp at h
    · split at h
      · simp at h
      · rename_i names v heq
        split at h
        · rename_i hlen
          split at h
          · rename_i val w hstar
            obtain ⟨hm, ht⟩ := Prod.mk.injEq .. ▸ h
            obtain rfl : m = ⟨names⟩ := (Option.some.inj hm).symm
            subst ht
            unfold Must at hstar
            split at hstar
            · rename_i htest
              obtain ⟨_, hw⟩ := Prod.mk.injEq .. ▸ hstar
              subst hw
              refine ⟨Nat.le_add_left 1 _, ?_⟩
              have hget : v.get = '*' := by
                simpa [PState.test] using htest
              simpa [PState.step, PState.get] using hget
            · simp at hstar
          · simp at h
        · rename_i hlen
          obtain ⟨hm, _⟩ := Prod.mk.injEq .. ▸ h
          obtain rfl : m = ⟨names⟩ := (Option.some.inj hm).symm
          have hnil : names = [] := List.length_eq_zero.mp (by omega)
          exact absurd (by simp [hnil]) hne

/-- C5, witness: the general `*` property at the concrete input
`(#PCDATA|a|b)*`, whose final consumed code point (position 13) is `*`. -/
theorem parseMixed_star_required_witness :
    1 ≤ (14 : Nat) ∧
      ("(#PCDATA|a|b)*".toList).getD (14 - 1) sentinelChar = '*' :=
  parseMixed_star_required.2.2.2 ⟨"(#PCDATA|a|b)*".toList, 0⟩ ⟨["a", "b"]⟩
    ⟨"(#PCDATA|a|b)*".toList, 14⟩ rfl (by decide)

/-- C6: the overlapping attribute-type keywords resolve by longest match:
`IDREFS`, `IDREF`, `ID`, `NMTOKENS` and `NMTOKEN` each parse to their own
token, with the cursor advanced by exactly the keyword length. -/
theorem parseAttType_longest_keyword :
    parseAttType ⟨"IDREFS".toList, 0⟩ =
      (some (AttType.tok .IDREFS), ⟨"IDREFS".toList, 6⟩) ∧
    parseAttType ⟨"IDREF".toList, 0⟩ =
      (some (AttType.tok .IDREF), ⟨"IDREF".toList, 5⟩) ∧
    parseAttType ⟨"ID".toList, 0⟩ = (some (AttType.tok .ID), ⟨"ID".toList, 2⟩) ∧
    parseAttType ⟨"NMTOKENS".toList, 0⟩ =
      (some (AttType.tok .NMTOKENS), ⟨"NMTOKENS".toList, 8⟩) ∧
    parseAttType ⟨"NMTOKEN".toList, 0⟩ =
      (some (AttType.tok .NMTOKEN), ⟨"NMTOKEN".toList, 7⟩) :=
  ⟨rfl, rfl, rfl, rfl, rfl⟩

/-- C7: the full XML declaration yields version `1.0`, encoding `UTF-8`
and standalone true; omitting the encoding declaration, the standalone
declaration, or both (each independently) leaves the corresponding field
at its zero value (empty string, false). -/
theorem parseXmlDecl_optional_fields :
    parseXmlDecl
        ⟨("<?xml version=\"1.0\" encoding=\"UTF-8\" standalone=\"yes\"?>").toList, 0⟩ =
      (some ⟨"1.0", "UTF-8", true⟩,
        ⟨("<?xml version=\"1.0\" encoding=\"UTF-8\" standalone=\"yes\"?>").toList, 55⟩) ∧
    parseXmlDecl ⟨("<?xml version=\"1.0\"?>").toList, 0⟩ =
      (some ⟨"1.0", "", false⟩, ⟨("<?xml version=\"1.0\"?>").toList, 21⟩) ∧
    parseXmlDecl ⟨("<?xml version=\"1.0\" encoding=\"UTF-8\"?>").toList, 0⟩ =
      (some ⟨"1.0", "UTF-8", false⟩,
        ⟨("<?xml version=\"1.0\" encoding=\"UTF-8\"?>").toList, 38⟩) ∧
    parseXmlDecl ⟨("<?xml version=\"1.0\" standalone=\"yes\"?>").toList, 0⟩ =
      (some ⟨"1.0", "", true⟩,
        ⟨("<?xml version=\"1.0\" standalone=\"yes\"?>").toList, 38⟩) :=
  ⟨rfl, rfl, rfl, rfl⟩

/-- C8: for every input and fuel, the Contents list built by the content
loop holds no text run that is empty or consists only of XML whitespace;
concretely, parsing `<b/> <c/>` drops the whitespace run between the two
elements. -/
theorem parseContents_drops_ws_runs :
    (∀ (fuel : Nat) (s : PState) (str : String),
      Content.text str ∈ ((parseContents fuel s).1.getD []) →
      str ≠ "" ∧ isOnlySpaces str = false) ∧
    parseContents 50 ⟨"<b/> <c/>".toList, 0⟩ =
      (some [Content.elem (Element.mk "b" [] [] true),
             Content.elem (Element.mk "c" [] [] true)], ⟨"<b/> <c/>".toList, 9⟩) := by
  constructor
  · intro fuel s str hmem
    exact parseContentsAux_ws fuel [] "" s
      (fun str2 h => absurd h (List.not_mem_nil _)) str hmem
  · rfl

/-- C8, witness: the invariant applied at the concrete input `hi<`, whose
Contents list is the single text run `hi`. -/
theorem parseContents_drops_ws_runs_witness :
    ("hi" : String) ≠ "" ∧ isOnlySpaces "hi" = false :=
  parseContents_drops_ws_runs.1 50 ⟨"hi<".toList, 0⟩ "hi"
    (List.mem_singleton.mpr rfl)

/-- C9: once the prolog and the root element have parsed successfully,
`parse` always returns a document: the trailing Misc loop never fails,
whatever input follows the root element. -/
theorem parse_ignores_trailing (f : Nat) (s : PState) (p : Prolog) (s1 : PState)
    (e : Element) (s2 : PState)
    (h1 : parseProlog f s = (some p, s1)) (h2 : parseElement f s1 = (some e, s2)) :
    ∃ x s3, parse f s = (some x, s3) ∧ x.element = e := by
  unfold parse
  rw [bind_ok h1, bind_ok h2]
  obtain ⟨r, t, hml⟩ := miscLoop_ok (s2.src.length + 1 - s2.cur) [] s2
  refine ⟨⟨p, e, r⟩, t, ?_, rfl⟩
  simp only [bind_def, PM.bind]
  rw [hml]
  rfl

/-- C9, witness: `<a/>@` parses successfully, and the final cursor is 4,
leaving the trailing `@` unconsumed and ignored. -/
theorem parse_ignores_trailing_witness :
    (∃ x s3, parse 100 ⟨"<a/>@".toList, 0⟩ = (some x, s3) ∧
      x.element = Element.mk "a" [] [] true) ∧
    (parse 100 ⟨"<a/>@".toList, 0⟩).2.cur = 4 := by
  constructor
  · exact parse_ignores_trailing 100 ⟨"<a/>@".toList, 0⟩
      ⟨none, [], none, []⟩ ⟨"<a/>@".toList, 0⟩
      (Element.mk "a" [] [] true) ⟨"<a/>@".toList, 4⟩ rfl rfl
  · rfl

/-- C10: whenever `parseMixed` succeeds with an empty name list the last
consumed code point is the closing parenthesis, so a following `*` is
left unconsumed; consequently `<!ELEMENT a (#PCDATA)*>` fails to parse
while `<!ELEMENT a (#PCDATA)>` and `<!ELEMENT a (#PCDATA|b)*>` succeed. -/
theorem parseMixed_empty_no_star :
    (∀ s m t, parseMixed s = (some m, t) → m.names = [] →
      1 ≤ t.cur ∧ t.src.getD (t.cur - 1) sentinelChar = ')') ∧
    (parseElementDecl 50 ⟨"<!ELEMENT a (#PCDATA)*>".toList, 0⟩).1 = none ∧
    parseElementDecl 50 ⟨"<!ELEMENT a (#PCDATA)>".toList, 0⟩ =
      (some ⟨"a", ContentSpec.mixed ⟨[]⟩⟩,
        ⟨"<!ELEMENT a (#PCDATA)>".toList, 22⟩) ∧
    parseElementDecl 50 ⟨"<!ELEMENT a (#PCDATA|b)*>".toList, 0⟩ =
      (some ⟨"a", ContentSpec.mixed ⟨["b"]⟩⟩,
        ⟨"<!ELEMENT a (#PCDATA|b)*>".toList, 25⟩) := by
  refine ⟨?_, rfl, rfl, rfl⟩
  intro s m t h hempty
  unfold parseMixed at h
  split at h
  · simp at h
  · split at h
    · simp at h
    · split at h
      · simp at h
      · rename_i names v heq
        split at h
        · rename_i hlen
          split at h
          · obtain ⟨hm, ht⟩ := Prod.mk.injEq .. ▸ h
            obtain rfl : m = ⟨names⟩ := (Option.some.inj hm).symm
            have hnil : names = [] := by simpa using hempty
            rw [hnil] at hlen
            simp at hlen
          · simp at h
        · obtain ⟨hm, ht⟩ := Prod.mk.injEq .. ▸ h
          subst ht
          exact mixedLoop_close _ [] names _ _ heq

/-- C10, witness: the general property at the concrete input `(#PCDATA)`,
whose final consumed code point (position 8) is `)`. -/
theorem parseMixed_empty_no_star_witness :
    1 ≤ (9 : Nat) ∧ ("(#PCDATA)".toList).getD (9 - 1) sentinelChar = ')' :=
  parseMixed_empty_no_star.1 ⟨"(#PCDATA)".toList, 0⟩ ⟨[]⟩
    ⟨"(#PCDATA)".toList, 9⟩ rfl rfl

end Xml
